import Mathlib

/-!
Shallow embedding of `rfw_service/iptables.py`: the `Rule` value object,
the iptables listing parser (`Iptables._iptables_list`), the query engine
(`Iptables.find`) and the command builder (`Iptables.rule_to_command`).

Python strings are modelled as lists of characters (`String` at the API
boundary); the string primitives used by the source (`str.strip`,
`str.split`, `str.split(sep)`, substring containment `in`, `str.isdigit`,
slicing) are defined below by structural recursion so that every
definition evaluates inside the kernel.
-/

set_option maxRecDepth 4000

/-- Whitespace set of Python `str.strip()` / `str.split()`:
space, tab, newline, vertical tab, form feed, carriage return. -/
def pyIsSpace (c : Char) : Bool :=
  c = ' ' || c = '\t' || c = '\n' || c = '\r' || c.toNat = 11 || c.toNat = 12

/-- Python `line.strip()` on a character list. -/
def trimList (l : List Char) : List Char :=
  ((l.dropWhile pyIsSpace).reverse.dropWhile pyIsSpace).reverse

/-- Split at every character satisfying `p`, keeping empty pieces
(the skeleton of both `str.split(sep)` and `str.split()`). -/
def splitPredAux (p : Char → Bool) (acc : List Char) : List Char → List (List Char)
  | [] => [acc.reverse]
  | c :: cs => if p c then acc.reverse :: splitPredAux p [] cs else splitPredAux p (c :: acc) cs

/-- Python `s.split(sep)` for a one-character separator: keeps empty pieces. -/
def splitChar (sep : Char) (l : List Char) : List (List Char) :=
  splitPredAux (fun c => c = sep) [] l

/-- Python `s.split()` (no argument): split on whitespace runs, dropping empties. -/
def splitWs (l : List Char) : List (List Char) :=
  (splitPredAux pyIsSpace [] l).filter (fun t => t ≠ [])

/-- Python `s.split()` returning `String` tokens. -/
def pySplitStr (l : List Char) : List String :=
  (splitWs l).map String.mk

/-- Python `needle in hay` substring containment, needle first. -/
def isPrefixList (needle hay : List Char) : Bool :=
  match needle, hay with
  | [], _ => true
  | _ :: _, [] => false
  | n :: ns, h :: hs => n = h && isPrefixList ns hs

/-- Python `needle in hay` (substring occurrence anywhere). -/
def containsList (needle : List Char) : List Char → Bool
  | [] => isPrefixList needle []
  | h :: hs => isPrefixList needle (h :: hs) || containsList needle hs

/-- Python 2 `str.isdigit()`: non-empty and every character a decimal digit. -/
def isdigitStr (s : String) : Bool :=
  match s.data with
  | [] => false
  | c :: cs => (c :: cs).all Char.isDigit

/-- `\w` of the source's regex (ASCII, no re.UNICODE flag). -/
def isWordChar (c : Char) : Bool :=
  c.isAlphanum || c = '_'

/-- `re.match(r"Chain (\w+) .*", line)`: anchored at the start, the literal
`Chain `, a maximal non-empty run of word characters (the group), then a
literal space followed by anything. Returns the captured group. -/
def chainMatch (l : List Char) : Option (List Char) :=
  if isPrefixList "Chain ".toList l then
    let rest := l.drop 6
    let name := rest.takeWhile isWordChar
    let rest2 := rest.drop name.length
    if name ≠ [] ∧ rest2.head? = some ' ' then some name else none
  else none

/-- `IPTABLES_HEADERS` from the source. -/
def IPTABLES_HEADERS : List String :=
  ["num", "pkts", "bytes", "target", "prot", "opt", "in", "out", "source", "destination"]

/-- `RULE_CHAINS` from the source. -/
def RULE_CHAINS : List String := ["INPUT", "OUTPUT", "FORWARD"]

/-- `RULE_TARGETS` from the source. -/
def RULE_TARGETS : List String := ["DROP", "ACCEPT", "REJECT"]

/-- The error taxonomy of the spec, as raised by the source: `assert` on the
header line (ParseError), namedtuple construction failure (construction
error), `assert` on the chain in `rule_to_command` (ValidationError). -/
inductive RfwError
  | parseError
  | constructionError
  | validationError
  deriving DecidableEq, Repr

/-- The `Rule` namedtuple of the source: 12 fields, values either a Python
string (`some s`) or `None` (`none`). Field names follow `RULE_ATTRS`. -/
structure Rule where
  chain : Option String
  num : Option String
  pkts : Option String
  bytes : Option String
  target : Option String
  prot : Option String
  opt : Option String
  inp : Option String
  out : Option String
  source : Option String
  destination : Option String
  extra : Option String
  deriving DecidableEq, Repr

/-- `Rule.__new__` on a single positional list argument:
`RuleProto.__new__(_cls, *props)` succeeds exactly when the list supplies
one value per namedtuple field. -/
def Rule.fromList (l : List (Option String)) : Except RfwError Rule :=
  match l with
  | [c, n, p, b, t, pr, o, i, ou, s, d, e] => .ok ⟨c, n, p, b, t, pr, o, i, ou, s, d, e⟩
  | _ => .error .constructionError

/-- A Python dict argument to `Rule.__new__`: a present key is `some v`,
an absent key is `none`. -/
structure RuleDict where
  chain : Option (Option String)
  num : Option (Option String)
  pkts : Option (Option String)
  bytes : Option (Option String)
  target : Option (Option String)
  prot : Option (Option String)
  opt : Option (Option String)
  inp : Option (Option String)
  out : Option (Option String)
  source : Option (Option String)
  destination : Option (Option String)
  extra : Option (Option String)
  deriving DecidableEq, Repr

/-- `Rule.__new__` on a single dict argument: the defaults dict
`d = dict(chain=None, num=None, pkts=None, bytes=None, target=None, prot=all, opt=--,
inp=*, out=*, source=0.0.0.0/0, destination=0.0.0.0/0, extra=)` updated with
the given keys. -/
def Rule.fromDict (d : RuleDict) : Rule :=
  ⟨d.chain.getD none, d.num.getD none, d.pkts.getD none, d.bytes.getD none,
   d.target.getD none, d.prot.getD (some "all"), d.opt.getD (some "--"),
   d.inp.getD (some "*"), d.out.getD (some "*"),
   d.source.getD (some "0.0.0.0/0"), d.destination.getD (some "0.0.0.0/0"),
   d.extra.getD (some "")⟩

/-- The argument shapes accepted by `Rule.__new__`: a single positional list,
a single positional dict, or any other positional shape (a non-list,
non-dict argument, or several positional arguments), which raises
`ValueError`. -/
inductive RuleArgs
  | fromList (l : List (Option String))
  | fromDict (d : RuleDict)
  | otherShape
  deriving Repr

/-- Dispatch of `Rule.__new__` over the modelled argument shapes. -/
def ruleNew : RuleArgs → Except RfwError Rule
  | .fromList l => Rule.fromList l
  | .fromDict d => .ok (Rule.fromDict d)
  | .otherShape => .error .constructionError

/-- `Rule.__eq__`: compares only chain, target, prot, opt, inp, out,
source, destination; `num`, `pkts`, `bytes` and `extra` are not compared. -/
def ruleEq (a b : Rule) : Bool :=
  a.chain == b.chain && a.target == b.target && a.prot == b.prot && a.opt == b.opt
    && a.inp == b.inp && a.out == b.out && a.source == b.source
    && a.destination == b.destination

/-- `Rule.__ne__`: the negation of `Rule.__eq__`. -/
def ruleNe (a b : Rule) : Bool :=
  !(ruleEq a b)

/-- A Python value as seen by `Rule.__eq__`: either a `Rule` instance or
some non-`Rule` value (string, integer, `None`). -/
inductive PyVal
  | rule : Rule → PyVal
  | str : String → PyVal
  | int : Int → PyVal
  | pyNone : PyVal
  deriving DecidableEq, Repr

/-- `r == v` for a `Rule` left operand: the `isinstance` check makes the
comparison `False` for every non-`Rule` operand. -/
def pyEqRule (r : Rule) (v : PyVal) : Bool :=
  match v with
  | .rule r2 => ruleEq r r2
  | _ => false

/-- `r != v` for a `Rule` left operand: `__ne__` negates `__eq__`. -/
def pyNeRule (r : Rule) (v : PyVal) : Bool :=
  !(pyEqRule r v)

namespace Iptables

/-- Tail of the loop body of `Iptables._iptables_list` for one stripped
non-blank line that is not a recognized `Chain` header: the header
`assert`, then the rule-line branch guarded by the current chain. `l` is
the stripped line; returns the next chain context and an optional new
record, or the error the line raises. -/
def processRest (ctx : Option String) (l : List Char) :
    Except RfwError (Option String × Option Rule) :=
  if containsList "source".toList l && containsList "destination".toList l then
    if pySplitStr l = IPTABLES_HEADERS then .ok (ctx, none) else .error .parseError
  else
    match ctx with
    | none => .ok (none, none)
    | some c =>
      match pySplitStr l with
      | [] => .ok (some c, none)
      | c0 :: cs =>
        if isdigitStr c0 then
          match Rule.fromList
              ((c :: ((c0 :: cs).take 10
                ++ [String.intercalate " " ((c0 :: cs).drop 10)])).map some) with
          | .ok r => .ok (some c, some r)
          | .error e => .error e
        else .ok (some c, none)

/-- The loop body of `Iptables._iptables_list` for one raw line:
strip, reset the chain on a blank line, set it on a recognized
`Chain <NAME> ...` line, otherwise fall through to `processRest`. -/
def processLine (ctx : Option String) (line0 : List Char) :
    Except RfwError (Option String × Option Rule) :=
  let l := trimList line0
  if l = [] then .ok (none, none)
  else
    match chainMatch l with
    | some nm =>
      if RULE_CHAINS.contains (String.mk nm) then .ok (some (String.mk nm), none)
      else processRest ctx l
    | none => processRest ctx l

/-- The loop of `Iptables._iptables_list` over the split lines: an error on
any line aborts the whole listing (the Python exception propagates and the
local `rules` list is lost). -/
def parseLines (ctx : Option String) : List (List Char) → Except RfwError (List Rule)
  | [] => .ok []
  | l :: ls =>
    match processLine ctx l with
    | .error e => .error e
    | .ok (ctx2, orule) =>
      match parseLines ctx2 ls with
      | .error e => .error e
      | .ok rest => .ok (orule.toList ++ rest)

/-- `Iptables._iptables_list` applied to the captured listing text:
`out.split(chr 10)` then the line loop with no initial chain context. -/
def iptablesList (out : String) : Except RfwError (List Rule) :=
  parseLines none (splitChar '\n' out.toList)

end Iptables

/-- A field name usable as a query key: the attributes of the `Rule`
namedtuple, as accessed by `getattr(r, param)` in `Iptables.find`. -/
inductive RField
  | chain | num | pkts | bytes | target | prot | opt | inp | out
  | source | destination | extra
  deriving DecidableEq, Repr

/-- `getattr(r, param)` for a `Rule` and a field name. -/
def getattrRule (r : Rule) : RField → Option String
  | .chain => r.chain
  | .num => r.num
  | .pkts => r.pkts
  | .bytes => r.bytes
  | .target => r.target
  | .prot => r.prot
  | .opt => r.opt
  | .inp => r.inp
  | .out => r.out
  | .source => r.source
  | .destination => r.destination
  | .extra => r.extra

/-- A query: a dict from field name to the list of acceptable values. -/
abbrev Query : Type := List (RField × List (Option String))

namespace Iptables

/-- The inner loop of `Iptables.find`: walk the query clauses; a clause
whose value set misses the rule's value breaks out with `matched_all`
false. -/
def matchedAll (r : Rule) : Query → Bool
  | [] => true
  | (f, vals) :: rest =>
    if !(vals.contains (getattrRule r f)) then false else matchedAll r rest

/-- `Iptables.find`: the outer loop appends each rule matching every query
clause to `ret`, in order. -/
def find (rules : List Rule) (query : Query) : List Rule :=
  rules.foldl (fun ret r => if matchedAll r query then ret ++ [r] else ret) []

/-- One token of the `extra` scan in `Iptables.rule_to_command`: a `dpt:`
prefixed token contributes `--dport <value>`, an `spt:` prefixed token
`--sport <value>` (value = piece after the first colon); both `if`s are
checked in source order, and other tokens contribute nothing. -/
def extraToken (e : List Char) : List (Option String) :=
  (if e.take 4 = "dpt:".toList then
    [some "--dport", some (String.mk ((splitChar ':' e).getD 1 []))]
   else [])
  ++ (if e.take 4 = "spt:".toList then
    [some "--sport", some (String.mk ((splitChar ':' e).getD 1 []))]
   else [])

/-- The `-p` part of `Iptables.rule_to_command`. -/
def protPart (r : Rule) : List (Option String) :=
  if r.prot ≠ some "all" then [some "-p", r.prot] else []

/-- The `extra` part of `Iptables.rule_to_command`: guarded by Python
truthiness of `r.extra` (skipped for `None` and for the empty string). -/
def extraPart (r : Rule) : List (Option String) :=
  match r.extra with
  | none => []
  | some s => if s = "" then [] else (splitWs s.toList).flatMap extraToken

/-- The `-d` part of `Iptables.rule_to_command`. -/
def dstPart (r : Rule) : List (Option String) :=
  if r.destination ≠ some "0.0.0.0/0" then [some "-d", r.destination] else []

/-- The `-s` part of `Iptables.rule_to_command`. -/
def srcPart (r : Rule) : List (Option String) :=
  if r.source ≠ some "0.0.0.0/0" then [some "-s", r.source] else []

/-- `Iptables.rule_to_command`: assert the chain is one of the three
standard chains, then emit chain, protocol, port extras, destination,
source, and the final `-j <target>`. -/
def rule_to_command (r : Rule) : Except RfwError (List (Option String)) :=
  if r.chain = some "INPUT" ∨ r.chain = some "OUTPUT" ∨ r.chain = some "FORWARD" then
    .ok ([r.chain] ++ protPart r ++ extraPart r ++ dstPart r ++ srcPart r
      ++ [some "-j", r.target])
  else .error .validationError

end Iptables

/-- Modelled from the spec's parsing description (§4.2, amended): the chain
context after one line — a blank line resets it to none, a recognized
`Chain <NAME> ...` line sets it, every other line (including a `Chain` line
with an unrecognized name) leaves it unchanged. -/
def specStep (ctx : Option String) (line0 : List Char) : Option String :=
  let l := trimList line0
  if l = [] then none
  else
    match chainMatch l with
    | some nm => if RULE_CHAINS.contains (String.mk nm) then some (String.mk nm) else ctx
    | none => ctx

/-- Modelled from the spec's parsing description (§4.2): the record the
columns of a line contribute — under a set chain context, when the first
whitespace-delimited column is numeric, the first 10 columns map
positionally to `[num, pkts, bytes, target, prot, opt, inp, out, source,
destination]`, the remaining columns are rejoined with single spaces into
`extra`, and the current chain is prepended. -/
def specCols (ctx : Option String) (cols : List String) : Option Rule :=
  match ctx with
  | none => none
  | some c =>
    match cols with
    | a0 :: a1 :: a2 :: a3 :: a4 :: a5 :: a6 :: a7 :: a8 :: a9 :: rest =>
      if isdigitStr a0 then
        some ⟨some c, some a0, some a1, some a2, some a3, some a4, some a5,
          some a6, some a7, some a8, some a9,
          some (String.intercalate " " rest)⟩
      else none
    | _ => none

/-- Modelled from the spec's parsing description (§4.2): the record a raw
line contributes, given the chain context current at that line. -/
def specRuleAt (ctx : Option String) (line0 : List Char) : Option Rule :=
  specCols ctx (pySplitStr (trimList line0))

/-- Modelled from the spec's parsing description (§4.2): the full list of
records of a listing, line by line, each tagged with the chain context
current at its line. -/
def specRules (ctx : Option String) : List (List Char) → List Rule
  | [] => []
  | l :: ls => (specRuleAt ctx l).toList ++ specRules (specStep ctx l) ls

/-- A line on which the parser cannot fail: blank, or a recognized `Chain`
header, or — when it contains both `"source"` and `"destination"` as
substrings — exactly the expected header, or otherwise not a numeric-led
line with fewer than 10 columns. -/
def goodRestB (l : List Char) : Bool :=
  if containsList "source".toList l && containsList "destination".toList l then
    pySplitStr l == IPTABLES_HEADERS
  else
    match pySplitStr l with
    | [] => true
    | c0 :: cs => !(isdigitStr c0) || 10 ≤ (c0 :: cs).length

/-- Benignness of one raw line: the condition under which `processLine`
cannot raise, whatever the current chain context. -/
def goodLineB (line0 : List Char) : Bool :=
  let l := trimList line0
  if l = [] then true
  else
    match chainMatch l with
    | some nm => if RULE_CHAINS.contains (String.mk nm) then true else goodRestB l
    | none => goodRestB l

/-- A mismatched header line as the source detects it: non-blank after
stripping, not a recognized `Chain` header, containing both `"source"` and
`"destination"` as substrings, and splitting into columns different from
`IPTABLES_HEADERS`. -/
def badHeaderB (line0 : List Char) : Bool :=
  let l := trimList line0
  !l.isEmpty
    && (match chainMatch l with
        | some nm => !(RULE_CHAINS.contains (String.mk nm))
        | none => true)
    && containsList "source".toList l && containsList "destination".toList l
    && !(pySplitStr l == IPTABLES_HEADERS)

/-- The query predicate as the spec words it: the rule's value for every
field present in the query is a member of that field's accepted-value
set. -/
def specMatch (q : Query) (r : Rule) : Prop :=
  ∀ pv ∈ q, getattrRule r pv.1 ∈ pv.2

instance (q : Query) (r : Rule) : Decidable (specMatch q r) :=
  List.decidableBAll _ q

/-- The fixed sample rule of the spec's CommandBuilder test. -/
def c4rule : Rule :=
  ⟨some "INPUT", some "1", some "0", some "0", some "ACCEPT", some "tcp", some "--",
   some "*", some "*", some "0.0.0.0/0", some "0.0.0.0/0", some "tcp dpt:7373 spt:34543"⟩

/-- A rule whose chain is not one of the three standard chains. -/
def badChainRule : Rule :=
  ⟨some "NAT", some "1", some "0", some "0", some "ACCEPT", some "all", some "--",
   some "*", some "*", some "0.0.0.0/0", some "0.0.0.0/0", some ""⟩

/-- Helper: a positional list of the wrong length makes the namedtuple
constructor fail. -/
theorem fromList_length_ne :
    ∀ l : List (Option String), l.length ≠ 12 →
      Rule.fromList l = .error .constructionError
  | [], _ => rfl
  | [_], _ => rfl
  | [_, _], _ => rfl
  | [_, _, _], _ => rfl
  | [_, _, _, _], _ => rfl
  | [_, _, _, _, _], _ => rfl
  | [_, _, _, _, _, _], _ => rfl
  | [_, _, _, _, _, _, _], _ => rfl
  | [_, _, _, _, _, _, _, _], _ => rfl
  | [_, _, _, _, _, _, _, _, _], _ => rfl
  | [_, _, _, _, _, _, _, _, _, _], _ => rfl
  | [_, _, _, _, _, _, _, _, _, _, _], _ => rfl
  | [_, _, _, _, _, _, _, _, _, _, _, _], h => absurd rfl h
  | _ :: _ :: _ :: _ :: _ :: _ :: _ :: _ :: _ :: _ :: _ :: _ :: _ :: _, _ => rfl

/-- Claim C1 (amended): `Rule` equality holds iff the two records agree on
the eight structural fields chain, target, prot, opt, inp, out, source,
destination — so records differing only in num, pkts, bytes or extra
compare equal — and inequality is the negation of equality. -/
theorem c1_structural_equality (a b : Rule) :
    (ruleEq a b = true ↔
      (a.chain = b.chain ∧ a.target = b.target ∧ a.prot = b.prot ∧ a.opt = b.opt ∧
       a.inp = b.inp ∧ a.out = b.out ∧ a.source = b.source ∧
       a.destination = b.destination))
    ∧ ruleNe a b = !(ruleEq a b) := by
  constructor
  · simp [ruleEq, and_assoc]
  · rfl

/-- Claim C1 counterexample: two records that agree on the eight structural
fields but differ in `extra` compare equal, although the claim says a
difference in `extra` makes them unequal. -/
theorem c1_extra_ignored_counterexample :
    ruleEq c4rule
      ⟨some "INPUT", some "2", some "7", some "9", some "ACCEPT", some "tcp", some "--",
       some "*", some "*", some "0.0.0.0/0", some "0.0.0.0/0", some "DIFFERENT"⟩ = true
    ∧ c4rule.extra ≠ some "DIFFERENT" := by
  exact ⟨by decide, by decide⟩

/-- Claim C9: comparing a `Rule` with any non-`Rule` value yields `False`
for `==` and `True` for `!=`, and never raises. -/
theorem c9_eq_non_rule (r : Rule) (v : PyVal) (h : ∀ r2 : Rule, v ≠ PyVal.rule r2) :
    pyEqRule r v = false ∧ pyNeRule r v = true := by
  cases v with
  | rule r2 => exact absurd rfl (h r2)
  | str s => exact ⟨rfl, rfl⟩
  | int n => exact ⟨rfl, rfl⟩
  | pyNone => exact ⟨rfl, rfl⟩

/-- Claim C9 witness: the comparison at a concrete rule and a string. -/
theorem c9_eq_non_rule_witness :
    pyEqRule c4rule (PyVal.str "INPUT") = false
    ∧ pyNeRule c4rule (PyVal.str "INPUT") = true :=
  c9_eq_non_rule c4rule (PyVal.str "INPUT") (fun _ h => PyVal.noConfusion h)

/-- Claim C6: `rule_to_command` fails with a ValidationError exactly when
the rule's chain is not one of INPUT, OUTPUT, FORWARD; on the three
standard chains it succeeds. -/
theorem c6_chain_validation (r : Rule) :
    (¬(r.chain = some "INPUT" ∨ r.chain = some "OUTPUT" ∨ r.chain = some "FORWARD") →
      Iptables.rule_to_command r = .error .validationError)
    ∧ ((r.chain = some "INPUT" ∨ r.chain = some "OUTPUT" ∨ r.chain = some "FORWARD") →
      ∃ cmd, Iptables.rule_to_command r = .ok cmd) := by
  constructor
  · intro h
    unfold Iptables.rule_to_command
    rw [if_neg h]
  · intro h
    exact ⟨_, by unfold Iptables.rule_to_command; rw [if_pos h]⟩

/-- Claim C6 witness: the validation at a rule with chain NAT and at the
sample rule with chain INPUT. -/
theorem c6_chain_validation_witness :
    Iptables.rule_to_command badChainRule = .error .validationError
    ∧ ∃ cmd, Iptables.rule_to_command c4rule = .ok cmd :=
  ⟨(c6_chain_validation badChainRule).1 (by decide),
   (c6_chain_validation c4rule).2 (by decide)⟩

/-- Claim C4: the command built for the spec's sample rule is exactly
`[INPUT, -p, tcp, --dport, 7373, --sport, 34543, -j, ACCEPT]`; with both
addresses equal to the wildcard no `-s`/`-d` part is emitted; `extra`
tokens with a prefix other than `dpt:`/`spt:` contribute nothing; every
successfully built command ends with `-j <target>`. -/
theorem c4_command_builder :
    Iptables.rule_to_command c4rule =
      .ok [some "INPUT", some "-p", some "tcp", some "--dport", some "7373",
           some "--sport", some "34543", some "-j", some "ACCEPT"]
    ∧ (∀ r : Rule,
        (r.chain = some "INPUT" ∨ r.chain = some "OUTPUT" ∨ r.chain = some "FORWARD") →
        r.source = some "0.0.0.0/0" → r.destination = some "0.0.0.0/0" →
        Iptables.rule_to_command r =
          .ok ([r.chain] ++ Iptables.protPart r ++ Iptables.extraPart r
            ++ [some "-j", r.target]))
    ∧ (∀ e : List Char, e.take 4 ≠ "dpt:".toList → e.take 4 ≠ "spt:".toList →
        Iptables.extraToken e = [])
    ∧ (∀ (r : Rule) (cmd : List (Option String)),
        Iptables.rule_to_command r = .ok cmd →
        ∃ l, cmd = l ++ [some "-j", r.target]) := by
  refine ⟨rfl, fun r hc hs hd => ?_, fun e h1 h2 => ?_, fun r cmd h => ?_⟩
  · unfold Iptables.rule_to_command
    rw [if_pos hc]
    simp [Iptables.dstPart, Iptables.srcPart, hs, hd]
  · unfold Iptables.extraToken
    rw [if_neg h1, if_neg h2]
    rfl
  · unfold Iptables.rule_to_command at h
    split at h
    · cases h
      exact ⟨[r.chain] ++ Iptables.protPart r ++ Iptables.extraPart r
        ++ Iptables.dstPart r ++ Iptables.srcPart r, by simp⟩
    · cases h

/-- Claim C4 witness: the wildcard clause, the ignored-token clause and the
trailing `-j` clause at concrete inputs. -/
theorem c4_command_builder_witness :
    Iptables.rule_to_command c4rule =
      .ok ([c4rule.chain] ++ Iptables.protPart c4rule ++ Iptables.extraPart c4rule
        ++ [some "-j", c4rule.target])
    ∧ Iptables.extraToken "tcp".toList = []
    ∧ ∃ l, [some "INPUT", some "-p", some "tcp", some "--dport", some "7373",
           some "--sport", some "34543", some "-j", some "ACCEPT"]
        = l ++ [some "-j", c4rule.target] :=
  ⟨c4_command_builder.2.1 c4rule (Or.inl rfl) rfl rfl,
   c4_command_builder.2.2.1 "tcp".toList (by decide) (by decide),
   c4_command_builder.2.2.2 c4rule _ c4_command_builder.1⟩

/-- Claim C7 (amended): construction over the modelled argument shapes — a
single positional list succeeds exactly when it has 12 field values
(chain, num, pkts, bytes, target, prot, opt, inp, out, source,
destination, extra), assigned in order; a single positional dict always
succeeds, with missing keys defaulted (chain, num, pkts, bytes, target to
None, prot to "all", opt to "--", inp and out to "*", source and
destination to "0.0.0.0/0", extra to ""); and any other positional shape
fails with a construction error. -/
theorem c7_construction_shapes :
    (∀ c n p b t pr o i ou s d e : Option String,
      ruleNew (.fromList [c, n, p, b, t, pr, o, i, ou, s, d, e]) =
        .ok ⟨c, n, p, b, t, pr, o, i, ou, s, d, e⟩)
    ∧ (∀ l : List (Option String), l.length ≠ 12 →
        ruleNew (.fromList l) = .error .constructionError)
    ∧ (∀ dct : RuleDict, ruleNew (.fromDict dct) =
        .ok ⟨dct.chain.getD none, dct.num.getD none, dct.pkts.getD none,
          dct.bytes.getD none, dct.target.getD none, dct.prot.getD (some "all"),
          dct.opt.getD (some "--"), dct.inp.getD (some "*"), dct.out.getD (some "*"),
          dct.source.getD (some "0.0.0.0/0"), dct.destination.getD (some "0.0.0.0/0"),
          dct.extra.getD (some "")⟩)
    ∧ ruleNew .otherShape = .error .constructionError :=
  ⟨fun _ _ _ _ _ _ _ _ _ _ _ _ => rfl,
   fun l h => fromList_length_ne l h,
   fun _ => rfl,
   rfl⟩

/-- Claim C7 witness: a 13-element positional list fails, the dict shape
succeeds with the documented defaults. -/
theorem c7_construction_shapes_witness :
    ruleNew (.fromList (List.replicate 13 (some "x"))) = .error .constructionError
    ∧ ruleNew (.fromDict ⟨some (some "INPUT"), none, none, none, some (some "DROP"),
        none, none, none, none, none, none, none⟩) =
      .ok ⟨some "INPUT", none, none, none, some "DROP", some "all", some "--",
        some "*", some "*", some "0.0.0.0/0", some "0.0.0.0/0", some ""⟩ :=
  ⟨c7_construction_shapes.2.1 (List.replicate 13 (some "x")) (by decide),
   c7_construction_shapes.2.2.1 _⟩

/-- Claim C7 counterexample: the claim's "positional ordered list of 11
field values" fails — the record type has 12 fields, so an 11-element
list raises a construction error instead of succeeding. -/
theorem c7_eleven_fields_counterexample :
    ruleNew (.fromList [some "INPUT", some "1", some "0", some "0", some "ACCEPT",
      some "tcp", some "--", some "*", some "*", some "0.0.0.0/0", some "0.0.0.0/0"])
      = .error .constructionError
    ∧ [some "INPUT", some "1", some "0", some "0", some "ACCEPT",
      some "tcp", some "--", some "*", some "*", some "0.0.0.0/0",
      some "0.0.0.0/0"].length = 11 :=
  ⟨rfl, rfl⟩

/-- Helper: the inner loop of `find` agrees with the spec's conjunction
over query clauses. -/
theorem matchedAll_iff (r : Rule) :
    ∀ q : Query, Iptables.matchedAll r q = true ↔ specMatch q r := by
  intro q
  induction q with
  | nil => simp [Iptables.matchedAll, specMatch]
  | cons pv rest ih =>
    obtain ⟨f, vals⟩ := pv
    by_cases hmem : getattrRule r f ∈ vals
    · have h : vals.contains (getattrRule r f) = true :=
        List.elem_eq_true_of_mem hmem
      simp [Iptables.matchedAll, h, ih, List.forall_mem_cons, specMatch, hmem]
    · have h : vals.contains (getattrRule r f) = false := by
        cases hc : vals.contains (getattrRule r f)
        · rfl
        · exact absurd (List.mem_of_elem_eq_true hc) hmem
      simp [Iptables.matchedAll, h, List.forall_mem_cons, specMatch, hmem]

/-- Helper: the accumulator loop of `find` is a filter. -/
theorem find_foldl (q : Query) :
    ∀ (rules : List Rule) (acc : List Rule),
      rules.foldl (fun ret r => if Iptables.matchedAll r q then ret ++ [r] else ret) acc
        = acc ++ rules.filter (fun r => Iptables.matchedAll r q) := by
  intro rules
  induction rules with
  | nil => intro acc; simp
  | cons r rest ih =>
    intro acc
    by_cases h : Iptables.matchedAll r q
    · simp [List.foldl, h, ih, List.filter]
    · simp [List.foldl, h, ih, List.filter]

/-- Claim C3: `find` returns the ordered subsequence of rules matching the
query — for every field present, the rule's value is in the accepted set —
the empty query returns every rule, and the result is a sublist of the
snapshot, which is left unchanged. -/
theorem c3_find_filter_semantics (rules : List Rule) (q : Query) :
    Iptables.find rules q = rules.filter (fun r => decide (specMatch q r))
    ∧ Iptables.find rules [] = rules
    ∧ (Iptables.find rules q).Sublist rules := by
  have hfind : ∀ q2 : Query, Iptables.find rules q2
      = rules.filter (fun r => Iptables.matchedAll r q2) := by
    intro q2
    unfold Iptables.find
    rw [find_foldl q2 rules []]
    simp
  have hb : ∀ r, Iptables.matchedAll r q = decide (specMatch q r) := by
    intro r
    by_cases h : specMatch q r
    · simp [h, (matchedAll_iff r q).mpr h]
    · simp only [h, decide_False]
      cases hm : Iptables.matchedAll r q
      · rfl
      · exact absurd ((matchedAll_iff r q).mp hm) h
  refine ⟨?_, ?_, ?_⟩
  · rw [hfind q]
    exact List.filter_congr (fun r _ => hb r)
  · rw [hfind []]
    simp [Iptables.matchedAll]
  · rw [hfind q]
    exact List.filter_sublist rules

/-- Helper: a successful prefix test decomposes the haystack. -/
theorem isPrefixList_append :
    ∀ needle hay : List Char, isPrefixList needle hay = true →
      ∃ rest, hay = needle ++ rest
  | [], hay, _ => ⟨hay, rfl⟩
  | _ :: _, [], h => by simp [isPrefixList] at h
  | n :: ns, m :: hs, h => by
    simp only [isPrefixList, Bool.and_eq_true, decide_eq_true_eq] at h
    obtain ⟨rest, hr⟩ := isPrefixList_append ns hs h.2
    exact ⟨rest, by simp [h.1, hr]⟩

/-- Helper: a line matched by the `Chain` regex starts with the six
characters `Chain `. -/
theorem chainMatch_shape (l : List Char) (nm : List Char) (h : chainMatch l = some nm) :
    ∃ rest, l = 'C' :: 'h' :: 'a' :: 'i' :: 'n' :: ' ' :: rest := by
  unfold chainMatch at h
  by_cases hp : isPrefixList "Chain ".toList l = true
  · obtain ⟨rest, hr⟩ := isPrefixList_append _ l hp
    exact ⟨rest, hr⟩
  · rw [if_neg hp] at h
    cases h

/-- Helper: `splitPredAux` started on a non-empty accumulator begins its
first piece with the reversed accumulator. -/
theorem splitPredAux_head_acc (p : Char → Bool) :
    ∀ (xs : List Char) (acc : List Char),
      ∃ t rest, splitPredAux p acc xs = (acc.reverse ++ t) :: rest := by
  intro xs
  induction xs with
  | nil =>
    intro acc
    exact ⟨[], [], by simp [splitPredAux]⟩
  | cons c cs ih =>
    intro acc
    by_cases h : p c = true
    · exact ⟨[], splitPredAux p [] cs, by simp [splitPredAux, h]⟩
    · obtain ⟨t, rest, ht⟩ := ih (c :: acc)
      refine ⟨c :: t, rest, ?_⟩
      simp only [splitPredAux, h, if_false, Bool.false_eq_true]
      rw [ht]
      simp

/-- Helper: on a line matched by the `Chain` regex the first
whitespace-split token starts with `C`, hence is not numeric. -/
theorem chainMatch_first_token_not_digit (l : List Char) (nm : List Char)
    (h : chainMatch l = some nm) :
    ∀ c0 cs, pySplitStr l = c0 :: cs → isdigitStr c0 = false := by
  obtain ⟨rest, hr⟩ := chainMatch_shape l nm h
  subst hr
  intro c0 cs hsp
  obtain ⟨t, rest2, ht⟩ :=
    splitPredAux_head_acc pyIsSpace ('h' :: 'a' :: 'i' :: 'n' :: ' ' :: rest) ['C']
  have hstep : splitPredAux pyIsSpace []
      ('C' :: 'h' :: 'a' :: 'i' :: 'n' :: ' ' :: rest)
      = (['C'].reverse ++ t) :: rest2 := by
    rw [← ht]
    rfl
  rw [pySplitStr, splitWs, hstep] at hsp
  simp only [List.reverse_cons, List.reverse_nil, List.nil_append,
    List.singleton_append] at hsp
  rw [List.filter_cons_of_pos (by simp), List.map_cons] at hsp
  cases hsp
  rfl

/-- Helper: when the first column cannot be numeric the spec-side record
builder yields nothing. -/
theorem specCols_not_digit (ctx : Option String) (cols : List String)
    (h : ∀ c0 cs, cols = c0 :: cs → isdigitStr c0 = false) :
    specCols ctx cols = none := by
  cases ctx with
  | none => rfl
  | some c =>
    rcases cols with _ | ⟨a0, _ | ⟨a1, _ | ⟨a2, _ | ⟨a3, _ | ⟨a4, _ | ⟨a5,
      _ | ⟨a6, _ | ⟨a7, _ | ⟨a8, _ | ⟨a9, rest⟩⟩⟩⟩⟩⟩⟩⟩⟩⟩
    case nil => rfl
    all_goals
      first
      | rfl
      | (have hd := h _ _ rfl
         simp [specCols, hd])

/-- Helper: on a benign non-header non-chain line, `processRest` agrees
with the spec-side description. -/
theorem processRest_eq (ctx : Option String) (l : List Char)
    (hg : goodRestB l = true) :
    Iptables.processRest ctx l = .ok (ctx, specCols ctx (pySplitStr l)) := by
  unfold Iptables.processRest goodRestB at *
  by_cases hsd : (containsList "source".toList l
      && containsList "destination".toList l) = true
  · rw [if_pos hsd] at hg ⊢
    have heq : pySplitStr l = IPTABLES_HEADERS := by
      simpa using hg
    rw [if_pos heq, heq]
    cases ctx with
    | none => rfl
    | some c => rfl
  · simp only [hsd, Bool.false_eq_true, if_false] at hg ⊢
    cases ctx with
    | none => rfl
    | some c =>
      cases hcols : pySplitStr l with
      | nil => simp only [hcols]; rfl
      | cons c0 cs =>
        simp only [hcols] at hg ⊢
        by_cases hd : isdigitStr c0 = true
        · simp only [hd, Bool.not_true, Bool.false_or, if_true] at hg ⊢
          have hlen : 10 ≤ (c0 :: cs).length := by
            simpa using hg
          rcases cs with _ | ⟨a1, _ | ⟨a2, _ | ⟨a3, _ | ⟨a4, _ | ⟨a5,
            _ | ⟨a6, _ | ⟨a7, _ | ⟨a8, _ | ⟨a9, rest⟩⟩⟩⟩⟩⟩⟩⟩⟩
          all_goals first
          | (simp only [specCols, hd, if_true]; rfl)
          | (simp at hlen)
        · have hd' : isdigitStr c0 = false := by
            cases hx : isdigitStr c0
            · rfl
            · exact absurd hx hd
          simp only [hd', Bool.false_eq_true, if_false]
          rw [specCols_not_digit (some c) (c0 :: cs)
            (fun x xs hx => by cases hx; exact hd')]

/-- Helper: on a benign line the parser's loop body agrees with the
spec-side context step and record extraction, for every context. -/
theorem processLine_eq_spec (line : List Char) (hg : goodLineB line = true)
    (ctx : Option String) :
    Iptables.processLine ctx line = .ok (specStep ctx line, specRuleAt ctx line) := by
  unfold Iptables.processLine specStep specRuleAt goodLineB at *
  by_cases hb : trimList line = []
  · simp only [hb, if_pos rfl]
    cases ctx with
    | none => rfl
    | some c => rfl
  · simp only [if_neg hb] at hg ⊢
    cases hm : chainMatch (trimList line) with
    | none =>
      simp only [hm] at hg ⊢
      exact processRest_eq ctx (trimList line) hg
    | some nm =>
      simp only [hm] at hg ⊢
      by_cases hc : RULE_CHAINS.contains (String.mk nm) = true
      · simp only [hc, if_true]
        rw [specCols_not_digit ctx _
          (fun c0 cs hcs => chainMatch_first_token_not_digit _ nm hm c0 cs hcs)]
      · simp only [hc, Bool.false_eq_true, if_false] at hg ⊢
        exact processRest_eq ctx (trimList line) hg

/-- Helper: on a listing whose every line is benign the parser loop agrees
with the spec-side description. -/
theorem parseLines_eq_spec :
    ∀ (lines : List (List Char)) (ctx : Option String),
      (∀ l ∈ lines, goodLineB l = true) →
      Iptables.parseLines ctx lines = .ok (specRules ctx lines)
  | [], _, _ => rfl
  | l :: ls, ctx, hg => by
    have h1 := processLine_eq_spec l (hg l (List.mem_cons_self l ls)) ctx
    have h2 := parseLines_eq_spec ls (specStep ctx l)
      (fun x hx => hg x (List.mem_cons_of_mem l hx))
    unfold Iptables.parseLines specRules
    simp only [h1, h2]

/-- A realistic iptables listing used as a concrete witness input. -/
def exListing : String :=
  "Chain INPUT (policy ACCEPT 0 packets, 0 bytes)\nnum pkts bytes target prot opt in out source destination\n1 9 635 ACCEPT tcp -- * * 0.0.0.0/0 0.0.0.0/0 tcp dpt:7393\n2 0 0 DROP all -- * * 2.3.4.5 0.0.0.0/0\n\nChain OUTPUT (policy ACCEPT 0 packets, 0 bytes)\nnum pkts bytes target prot opt in out source destination\n1 0 0 ACCEPT tcp -- * * 0.0.0.0/0 0.0.0.0/0 tcp spt:7393\n"

/-- Claim C2 (amended): on every listing whose lines are benign (headers
exact, numeric-led lines with at least 10 columns and not containing both
"source" and "destination"), the parser returns exactly the records
described by the spec: one record per rule line, in original line order,
tagged with the chain context current at its line — where a blank line
resets the context, a recognized `Chain` line sets it, and a `Chain` line
with an unrecognized name leaves the previous context in place — with the
first 10 columns mapped positionally and the rest joined into `extra`. -/
theorem c2_parser_refines_spec (t : String)
    (hg : ∀ l ∈ splitChar '\n' t.toList, goodLineB l = true) :
    Iptables.iptablesList t = .ok (specRules none (splitChar '\n' t.toList)) :=
  parseLines_eq_spec (splitChar '\n' t.toList) none hg

/-- Claim C2 witness: the refinement evaluated on a realistic two-chain
listing with three rule lines. -/
theorem c2_parser_refines_spec_witness :
    Iptables.iptablesList exListing
      = .ok (specRules none (splitChar '\n' exListing.toList))
    ∧ (specRules none (splitChar '\n' exListing.toList)).length = 3
    ∧ (specRules none (splitChar '\n' exListing.toList)).map Rule.chain
      = [some "INPUT", some "INPUT", some "OUTPUT"] :=
  ⟨c2_parser_refines_spec exListing (by decide), by decide, by decide⟩

/-- Claim C2 counterexample: a rule line sitting under an unrecognized
`Chain FOO` header still produces a record — the unrecognized header does
not clear the previous INPUT context, contradicting the claim that lines
under unrecognized chain names produce no record. -/
theorem c2_unrecognized_chain_counterexample :
    Iptables.iptablesList
        "Chain INPUT (policy ACCEPT)\nChain FOO (policy ACCEPT)\n1 0 0 ACCEPT all -- * * 0.0.0.0/0 0.0.0.0/0"
      = .ok [⟨some "INPUT", some "1", some "0", some "0", some "ACCEPT", some "all",
          some "--", some "*", some "*", some "0.0.0.0/0", some "0.0.0.0/0", some ""⟩]
    ∧ chainMatch (trimList "Chain FOO (policy ACCEPT)".toList) = some "FOO".toList
    ∧ String.mk "FOO".toList ∉ RULE_CHAINS :=
  ⟨rfl, rfl, by decide⟩

/-- Helper: a non-header line containing both sentinel substrings but with
mismatched columns makes `processRest` raise the parse error. -/
theorem processRest_header_mismatch (ctx : Option String) (l : List Char)
    (hsrc : containsList "source".toList l = true)
    (hdst : containsList "destination".toList l = true)
    (hhd : pySplitStr l ≠ IPTABLES_HEADERS) :
    Iptables.processRest ctx l = .error .parseError := by
  unfold Iptables.processRest
  have hand : (containsList "source".toList l
      && containsList "destination".toList l) = true := by
    rw [hsrc, hdst]
    rfl
  rw [if_pos hand, if_neg hhd]

/-- Helper: a mismatched header line makes the loop body raise the parse
error, whatever the current context. -/
theorem badHeader_processLine (line : List Char) (hb : badHeaderB line = true)
    (ctx : Option String) :
    Iptables.processLine ctx line = .error .parseError := by
  unfold badHeaderB at hb
  simp only [Bool.and_eq_true] at hb
  obtain ⟨⟨⟨⟨hne, hcm⟩, hsrc⟩, hdst⟩, hhd⟩ := hb
  have hne' : trimList line ≠ [] := by
    intro h
    rw [h] at hne
    cases hne
  have hhd' : pySplitStr (trimList line) ≠ IPTABLES_HEADERS := by
    intro h
    rw [h] at hhd
    simp at hhd
  unfold Iptables.processLine
  rw [if_neg hne']
  cases hm : chainMatch (trimList line) with
  | none =>
    exact processRest_header_mismatch ctx (trimList line) hsrc hdst hhd'
  | some nm =>
    simp only [hm] at hcm ⊢
    have hc : RULE_CHAINS.contains (String.mk nm) = false := by
      cases hx : RULE_CHAINS.contains (String.mk nm)
      · rfl
      · rw [hx] at hcm
        cases hcm
    simp only [hc, Bool.false_eq_true, if_false]
    exact processRest_header_mismatch ctx (trimList line) hsrc hdst hhd'

/-- Helper: a listing containing a mismatched header line parses to an
error. -/
theorem parseLines_has_bad_header :
    ∀ (lines : List (List Char)) (ctx : Option String),
      (∃ l ∈ lines, badHeaderB l = true) →
      ∃ e, Iptables.parseLines ctx lines = .error e
  | [], _, h => absurd h (by simp)
  | l :: ls, ctx, h => by
    unfold Iptables.parseLines
    by_cases hb : badHeaderB l = true
    · exact ⟨.parseError, by rw [badHeader_processLine l hb ctx]⟩

    · have hls : ∃ x ∈ ls, badHeaderB x = true := by
        obtain ⟨x, hx, hbx⟩ := h
        cases List.mem_cons.mp hx with
        | inl heq => exact absurd (heq ▸ hbx) hb
        | inr hmem => exact ⟨x, hmem, hbx⟩
      cases hp : Iptables.processLine ctx l with
      | error e => exact ⟨e, rfl⟩
      | ok pair =>
        obtain ⟨ctx2, orule⟩ := pair
        obtain ⟨e, he⟩ := parseLines_has_bad_header ls ctx2 hls
        refine ⟨e, ?_⟩
        show (match Iptables.parseLines ctx2 ls with
          | Except.error e => Except.error e
          | Except.ok rest => Except.ok (orule.toList ++ rest)) = Except.error e
        rw [he]

/-- Claim C5 (amended): a non-blank line containing both "source" and
"destination" as substrings that is not a recognized `Chain` header and
whose columns differ from the expected sequence raises a ParseError when
the loop body reaches it; a listing containing such a line fails with an
error (a ParseError unless an earlier malformed rule line raises its
construction error first) and produces no rules. -/
theorem c5_header_mismatch_parse_error :
    (∀ (ctx : Option String) (line : List Char), badHeaderB line = true →
      Iptables.processLine ctx line = .error .parseError)
    ∧ (∀ t : String, (∃ l ∈ splitChar '\n' t.toList, badHeaderB l = true) →
      ∃ e, Iptables.iptablesList t = .error e) :=
  ⟨fun ctx line hb => badHeader_processLine line hb ctx,
   fun t h => parseLines_has_bad_header (splitChar '\n' t.toList) none h⟩

/-- A listing whose second line is a header with a trailing extra column. -/
def c5badText : String :=
  "Chain INPUT (policy ACCEPT)\nnum pkts bytes target prot opt in out source destination x\n1 0 0 ACCEPT all -- * * 0.0.0.0/0 0.0.0.0/0"

/-- Claim C5 witness: the mismatched-header failure at a concrete line and
a concrete listing. -/
theorem c5_header_mismatch_witness :
    Iptables.processLine none
        "num pkts bytes target prot opt in out source destination x".toList
      = .error .parseError
    ∧ ∃ e, Iptables.iptablesList c5badText = .error e :=
  ⟨c5_header_mismatch_parse_error.1 none _ (by decide),
   c5_header_mismatch_parse_error.2 c5badText (by decide)⟩

/-- Claim C5 counterexample: a line containing both the tokens "source"
and "destination" with columns different from the expected header — but
matching the recognized-`Chain` regex — is consumed as a chain header, so
the parser succeeds with no error, contradicting the claim that every
such listing fails with a ParseError. -/
theorem c5_shadowed_header_counterexample :
    Iptables.iptablesList "Chain INPUT x source destination" = .ok []
    ∧ "source" ∈ pySplitStr (trimList "Chain INPUT x source destination".toList)
    ∧ "destination" ∈ pySplitStr (trimList "Chain INPUT x source destination".toList)
    ∧ pySplitStr (trimList "Chain INPUT x source destination".toList)
      ≠ IPTABLES_HEADERS :=
  ⟨rfl, by decide, by decide, by decide⟩

/-- Claim C10 (amended): inside a recognized chain context, a line whose
first whitespace-delimited token is numeric but which has fewer than 10
columns — and which does not contain both "source" and "destination" as
substrings (such a line hits the header validation first and raises a
ParseError instead) — makes the loop body raise the record-construction
error rather than skipping the line or producing a record. -/
theorem c10_short_rule_line_error (c : String) (line : List Char)
    (hchain : c ∈ RULE_CHAINS)
    (hsd : (containsList "source".toList (trimList line)
      && containsList "destination".toList (trimList line)) = false)
    (c0 : String) (cs : List String)
    (hcols : pySplitStr (trimList line) = c0 :: cs)
    (hd : isdigitStr c0 = true)
    (hlen : (c0 :: cs).length < 10) :
    Iptables.processLine (some c) line = .error .constructionError := by
  have hne : trimList line ≠ [] := by
    intro h
    rw [h] at hcols
    have hnil : pySplitStr [] = [] := rfl
    rw [hnil] at hcols
    cases hcols
  unfold Iptables.processLine
  rw [if_neg hne]
  cases hm : chainMatch (trimList line) with
  | some nm =>
    have hnd := chainMatch_first_token_not_digit _ nm hm c0 cs hcols
    rw [hnd] at hd
    cases hd
  | none =>
    unfold Iptables.processRest
    simp only [hsd, Bool.false_eq_true, if_false, hcols, hd, if_true]
    simp only [List.length_cons] at hlen
    have hlen12 : ((c :: ((c0 :: cs).take 10
        ++ [String.intercalate " " ((c0 :: cs).drop 10)])).map some).length ≠ 12 := by
      simp [List.length_take]
      omega
    rw [fromList_length_ne _ hlen12]

/-- Claim C10 witness: a two-column numeric line under the INPUT context
raises the construction error. -/
theorem c10_short_rule_line_error_witness :
    Iptables.processLine (some "INPUT") "1 2".toList = .error .constructionError :=
  c10_short_rule_line_error "INPUT" "1 2".toList (by decide) (by decide)
    "1" ["2"] (by decide) (by decide) (by decide)

/-- Claim C10 counterexample: a numeric-led line with fewer than 10
columns that contains both "source" and "destination" raises the header
ParseError, not the record-construction error the claim predicts. -/
theorem c10_header_tokens_counterexample :
    Iptables.iptablesList "Chain INPUT x\n1 source destination" = .error .parseError
    ∧ RfwError.parseError ≠ RfwError.constructionError
    ∧ isdigitStr "1" = true
    ∧ (pySplitStr (trimList "1 source destination".toList)).length < 10 :=
  ⟨rfl, by decide, by decide, by decide⟩
